import Mathlib

/-!
Verification of the CCCP mini-language compiler front end
(tokenizer in `lexer/lexer.go`, Pratt parser in `parser.go`,
C code generator in `codegen/codegen.go`).

The Go code is shallowly embedded:
* Go strings are Lean `String`s; the byte cursor of the lexer is a `Nat`
  index into a `List Char` (the sources are ASCII, where Go's byte-level
  scanning and character-level scanning agree).
* Go maps (`map[string]string`, `map[string]*ast.FunctionLiteral`) are
  association lists with insert-or-overwrite semantics; map *iteration*,
  whose order Go leaves unspecified, is modelled by passing an explicit
  key order to the functions that range over a map.
* `strings.Builder` accumulation is modelled by returning the grown
  output string; each Go `WriteString` becomes a `++`.
* Go `nil` interface values of type `ast.Expression` are the explicit
  constructor `Expression.nilExpression`; statement parse functions
  that may return `nil` return `Option Statement`.
-/

namespace CCCP

/-! ## Token model (ast.go: `Token`, `TokenType`) -/

/-- Token kinds, from the `TokenType` constants in `ast.go`. -/
inductive TokenType where
  | EQ | NOT_EQ
  | ILLEGAL | EOF
  | IDENT | INT | STRING
  | ASSIGN | PLUS
  | COMMA | SEMICOLON | LPAREN | RPAREN
  | PRINT | VAR
  | MINUS | ASTERISK | SLASH
  | IF | LBRACE | RBRACE
  | EXTERN
  | COLON | DOT | ELLIPSIS
  | FUNC | RETURN
deriving DecidableEq, Repr

/-- The Go string value of each `TokenType` constant (Go represents
`TokenType` as a string; error messages interpolate these values). -/
def TokenType.goString : TokenType → String
  | .EQ => "==" | .NOT_EQ => "!="
  | .ILLEGAL => "ILLEGAL" | .EOF => "EOF"
  | .IDENT => "IDENT" | .INT => "INT" | .STRING => "STRING"
  | .ASSIGN => "=" | .PLUS => "+"
  | .COMMA => "," | .SEMICOLON => ";" | .LPAREN => "(" | .RPAREN => ")"
  | .PRINT => "PRINT" | .VAR => "VAR"
  | .MINUS => "-" | .ASTERISK => "*" | .SLASH => "/"
  | .IF => "IF" | .LBRACE => "\x7b" | .RBRACE => "\x7d"
  | .EXTERN => "EXTERN"
  | .COLON => ":" | .DOT => "." | .ELLIPSIS => "..."
  | .FUNC => "FUNC" | .RETURN => "RETURN"

/-- A lexical token (`ast.Token`): a kind and the literal source text. -/
structure Token where
  type : TokenType
  literal : String
deriving DecidableEq, Repr

/-! ## AST (ast.go)

Nodes keep the fields the parser fills in and the generator reads.  The
`Token` field that every Go node carries is only used by the
`TokenLiteral()` pretty-printing helper, never by the code generator,
and is dropped.  Parameter lists (`[]*ast.Identifier`) are lists of the
identifiers' `Value` strings, the only field the parser and generator
use.  `ExternStatement.Params` and `.ReturnType` are never assigned or
read and are dropped.  A Go `nil` value of interface type
`ast.Expression` (which the parser can place in any expression slot) is
`Expression.nilExpression`; the optional initializer of a `var`
declaration and the optional operand of `return` are `nil` in Go when
absent. -/

mutual
inductive Expression where
  | identifier (value : String)
  | integerLiteral (value : Int)
  | stringLiteral (value : String)
  | infixExpression (left : Expression) (operator : String) (right : Expression)
  | functionCall (function : Expression) (arguments : List Expression)
  | functionLiteral (parameters : List String) (body : BlockStatement)
  | nilExpression

inductive BlockStatement where
  | mk (statements : List Statement)

inductive Statement where
  | letStatement (name : String) (value : Expression)
  | printStatement (value : Expression)
  | assignmentStatement (name : String) (value : Expression)
  | ifStatement (condition : Expression) (consequence : BlockStatement)
      (alternative : Option BlockStatement)
  | blockStatement (block : BlockStatement)
  | externStatement (name : String)
  | returnStatement (value : Expression)
  | functionStatement (name : String) (parameters : List String) (body : BlockStatement)
  | expressionStatement (expression : Expression)
end

/-- The statement list of a block. -/
def BlockStatement.statements : BlockStatement → List Statement
  | .mk s => s

/-! ## Association-list maps

Go's `map[string]V` with the operations the compiler uses: lookup,
insert-or-overwrite, and (for `backupVariables`) copying, which for an
immutable association list is the identity. -/

def lookupKey {α : Type} : List (String × α) → String → Option α
  | [], _ => none
  | (k, v) :: rest, n => if k = n then some v else lookupKey rest n

def insertKey {α : Type} : List (String × α) → String → α → List (String × α)
  | [], n, t => [(n, t)]
  | (k, v) :: rest, n, t =>
      if k = n then (n, t) :: rest else (k, v) :: insertKey rest n t

/-! ## Code generator state (codegen.go: `CodeGenerator`) -/

/-- The payload of an `ast.FunctionLiteral` as stored in the generator's
function table (the `Token` field is never read back). -/
structure FunctionLit where
  parameters : List String
  body : BlockStatement

/-- `codegen.CodeGenerator`.  The Go field `variables` is `vars` here
(`variables` is a reserved word in Lean 4). -/
structure CodeGenerator where
  output : String
  vars : List (String × String)
  functions : List (String × FunctionLit)
  currentFunc : Option FunctionLit
  funcCounter : Nat

/-- `codegen.New` composed with the state reset at the top of `Generate`. -/
def CodeGenerator.new : CodeGenerator :=
  { output := "", vars := [], functions := [], currentFunc := none, funcCounter := 0 }

/-- `backupVariables`: Go copies the map; an association list is
immutable, so the copy is the list itself. -/
def backupVariables (cg : CodeGenerator) : List (String × String) :=
  cg.vars

/-! ## Type inference (codegen.go: `expressionIsString` and friends) -/

/-- Does the expression pattern-match `*ast.StringLiteral`? -/
def isStringLiteralNode : Expression → Bool
  | .stringLiteral _ => true
  | _ => false

/-- `isStringVariable`: an identifier recorded as `"string"` in the
symbol table. -/
def isStringVariable (vars : List (String × String)) : Expression → Bool
  | .identifier v =>
      match lookupKey vars v with
      | some t => t = "string"
      | none => false
  | _ => false

/-- `isSimpleStringConcat`: a `+` whose operands are literal+literal,
literal+string-variable, or string-variable+literal. -/
def isSimpleStringConcat (vars : List (String × String)) : Expression → Bool
  | .infixExpression l op r =>
      if op ≠ "+" then false
      else
        (isStringLiteralNode l && isStringLiteralNode r) ||
        (isStringLiteralNode l && isStringVariable vars r) ||
        (isStringVariable vars l && isStringLiteralNode r)
  | _ => false

/-- `expressionIsString`: the two-valued type inference; unknown
identifiers default to int (false). -/
def expressionIsString (vars : List (String × String)) : Expression → Bool
  | .stringLiteral _ => true
  | .infixExpression l op r =>
      op = "+" && isSimpleStringConcat vars (.infixExpression l op r)
  | .identifier v =>
      match lookupKey vars v with
      | some t => t = "string"
      | none => false
  | _ => false

/-- `isStringComparison`: either operand of the infix is string-typed. -/
def isStringComparison (vars : List (String × String))
    (l r : Expression) : Bool :=
  expressionIsString vars l || expressionIsString vars r

/-! ## Expression emission (codegen.go: `generateExpression` and friends)

The Go expression generators only append to `cg.output` and read
`cg.variables`; they are rendered as pure functions from the symbol
table and the expression to the written string.  Go raw-string
literals such as `printf("%d\n", ` contain a literal backslash-n
two-character sequence (the C escape), rendered here as `\\n`, while
interpreted Go strings such as ");\n" contain a real newline. -/

/-- `generateSimpleStringConcat` (reads no generator state): folds
literal+literal at compile time, otherwise emits a `concat_strings`
call; the unreachable fallback emits `"concat_error"`. -/
def generateSimpleStringConcat (l r : Expression) : String :=
  match l, r with
  | .stringLiteral ls, .stringLiteral rs => "\"" ++ ls ++ rs ++ "\""
  | .stringLiteral ls, .identifier ri => "concat_strings(\"" ++ ls ++ "\", " ++ ri ++ ")"
  | .identifier li, .stringLiteral rs => "concat_strings(" ++ li ++ ", \"" ++ rs ++ "\")"
  | _, _ => "\"concat_error\""

mutual
/-- `generateExpression`: the string written for an expression, given
the symbol table.  Go's default case (unknown node type, including a
nil interface value) logs a debug line and writes nothing.  The bodies
of `generateStringComparison` (strcmp rewriting of `==`/`!=` with a
string operand; no default case, so other operators write nothing) and
`generateFunctionCall` (both branches of whose
`if _, exists := cg.functions[...]` write `ident.Value`, so the
function table does not influence the emission) are inlined at their
unique call sites to keep the recursion structural. -/
def generateExpression (vars : List (String × String)) : Expression → String
  | .identifier v => v
  | .integerLiteral v => toString v
  | .stringLiteral v => "\"" ++ v ++ "\""
  | .infixExpression l op r =>
      if op = "+" && isSimpleStringConcat vars (.infixExpression l op r) then
        generateSimpleStringConcat l r
      else if (op = "==" || op = "!=") && isStringComparison vars l r then
        -- generateStringComparison
        if op = "==" then
          "(strcmp(" ++ generateExpression vars l ++ ", " ++
            generateExpression vars r ++ ") == 0)"
        else if op = "!=" then
          "(strcmp(" ++ generateExpression vars l ++ ", " ++
            generateExpression vars r ++ ") != 0)"
        else ""
      else
        generateExpression vars l ++ " " ++ op ++ " " ++ generateExpression vars r
  | .functionCall f args =>
      -- generateFunctionCall
      (match f with
       | .identifier v => v
       | .integerLiteral v => toString v
       | .stringLiteral v => "\"" ++ v ++ "\""
       | e => generateExpression vars e)
      ++ "(" ++ generateCallArguments vars args ++ ")"
  | .functionLiteral _ _ => ""
  | .nilExpression => ""

/-- The argument list of a call, `", "`-separated (the Go loop writes
`", "` before every argument but the first). -/
def generateCallArguments (vars : List (String × String)) : List Expression → String
  | [] => ""
  | [a] => generateExpression vars a
  | a :: rest => generateExpression vars a ++ ", " ++ generateCallArguments vars rest
end

/-! ## Statement emission (codegen.go: `generateStatement` and friends) -/

/-- `generateLetStatement`.  Note the Go order of effects: the type is
inferred from the pre-insertion table, the binding is recorded, and the
initializer is emitted against the updated table. -/
def generateLetStatement (cg : CodeGenerator) (name : String) (v : Expression) :
    CodeGenerator :=
  match v with
  | .nilExpression =>
      { cg with
          vars := insertKey cg.vars name "int"
          output := cg.output ++ "    int " ++ name ++ ";\n" }
  | _ =>
      if expressionIsString cg.vars v then
        let vars2 := insertKey cg.vars name "string"
        { cg with
            vars := vars2
            output := cg.output ++ "    char* " ++ name ++ " = " ++
              generateExpression vars2 v ++ ";\n" }
      else
        let vars2 := insertKey cg.vars name "int"
        { cg with
            vars := vars2
            output := cg.output ++ "    int " ++ name ++ " = " ++
              generateExpression vars2 v ++ ";\n" }

/-- `generateAssignmentStatement`: declares (char*/int) and records the
variable on first assignment, otherwise emits a plain assignment. -/
def generateAssignmentStatement (cg : CodeGenerator) (name : String) (v : Expression) :
    CodeGenerator :=
  match lookupKey cg.vars name with
  | none =>
      if expressionIsString cg.vars v then
        let vars2 := insertKey cg.vars name "string"
        { cg with
            vars := vars2
            output := cg.output ++ "    char* " ++ name ++ " = " ++
              generateExpression vars2 v ++ ";\n" }
      else
        let vars2 := insertKey cg.vars name "int"
        { cg with
            vars := vars2
            output := cg.output ++ "    int " ++ name ++ " = " ++
              generateExpression vars2 v ++ ";\n" }
  | some _ =>
      { cg with
          output := cg.output ++ "    " ++ name ++ " = " ++
            generateExpression cg.vars v ++ ";\n" }

/-- `generatePrintStatement`: `%s` format for string-typed identifiers
and string literals, `%d` otherwise. -/
def generatePrintStatement (cg : CodeGenerator) (v : Expression) : CodeGenerator :=
  match v with
  | .identifier name =>
      match lookupKey cg.vars name with
      | some t =>
          if t = "string" then
            { cg with output := cg.output ++ "    printf(\"%s\\n\", " ++
                generateExpression cg.vars v ++ ");\n" }
          else
            { cg with output := cg.output ++ "    printf(\"%d\\n\", " ++
                generateExpression cg.vars v ++ ");\n" }
      | none =>
          { cg with output := cg.output ++ "    printf(\"%d\\n\", " ++
              generateExpression cg.vars v ++ ");\n" }
  | .stringLiteral _ =>
      { cg with output := cg.output ++ "    printf(\"%s\\n\", " ++
          generateExpression cg.vars v ++ ");\n" }
  | _ =>
      { cg with output := cg.output ++ "    printf(\"%d\\n\", " ++
          generateExpression cg.vars v ++ ");\n" }

/-- `generateExternStatement`: a comment-only placeholder. -/
def generateExternStatement (cg : CodeGenerator) (name : String) : CodeGenerator :=
  { cg with output := cg.output ++ "    // extern " ++ name ++
      " declared (handled by C headers)\n" }

/-- `generateReturnStatement`: `return;` when the operand is Go-nil,
otherwise `return <expr>;`. -/
def generateReturnStatement (cg : CodeGenerator) (v : Expression) : CodeGenerator :=
  match v with
  | .nilExpression => { cg with output := cg.output ++ "    return" ++ ";\n" }
  | _ => { cg with output := cg.output ++ "    return" ++ " " ++
      generateExpression cg.vars v ++ ";\n" }

/-- `generateFunctionStatement`: registers the function; emits nothing. -/
def generateFunctionStatement (cg : CodeGenerator) (name : String)
    (params : List String) (body : BlockStatement) : CodeGenerator :=
  { cg with functions := insertKey cg.functions name ⟨params, body⟩ }

/-- `generateAutoPrint`: at the entry-point level (`currentFunc == nil`)
a comment plus a `printf` whose format is `%s` only when the expression
node is a `*ast.StringLiteral` and `%d` otherwise; inside a function the
expression is emitted as a plain statement. -/
def generateAutoPrint (cg : CodeGenerator) (e : Expression) : CodeGenerator :=
  match cg.currentFunc with
  | none =>
      let base := cg.output ++ "    // Auto-print: " ++
        generateExpression cg.vars e ++ "\n"
      match e with
      | .stringLiteral _ =>
          { cg with output := base ++ "    printf(\"%s\\n\", " ++
              generateExpression cg.vars e ++ ");\n" }
      | _ =>
          { cg with output := base ++ "    printf(\"%d\\n\", " ++
              generateExpression cg.vars e ++ ");\n" }
  | some _ =>
      { cg with output := cg.output ++ generateExpression cg.vars e ++ ";\n" }

mutual
/-- `generateStatement`: dispatch on the statement variant.  The body
of `generateIfStatement` — snapshot the symbol table, emit the header,
consequence block and close brace, then restore the snapshot (the
`Alternative` field is never read) — is inlined at its unique call
site to keep the recursion structural. -/
def generateStatement (cg : CodeGenerator) : Statement → CodeGenerator
  | .letStatement n v => generateLetStatement cg n v
  | .printStatement v => generatePrintStatement cg v
  | .assignmentStatement n v => generateAssignmentStatement cg n v
  | .ifStatement c cons _alt =>
      -- generateIfStatement
      let oldVariables := backupVariables cg
      let header := cg.output ++ "    if (" ++ generateExpression cg.vars c ++ ") \x7b\n"
      let cg1 := { cg with output := header }
      let cg2 := generateBlockStatement cg1 cons
      let cg3 := { cg2 with output := cg2.output ++ "    \x7d\n" }
      { cg3 with vars := oldVariables }
  | .blockStatement b => generateBlockStatement cg b
  | .externStatement n => generateExternStatement cg n
  | .returnStatement v => generateReturnStatement cg v
  | .functionStatement n ps b => generateFunctionStatement cg n ps b
  | .expressionStatement e => generateAutoPrint cg e

/-- `generateBlockStatement`: snapshot, generate the statements, restore. -/
def generateBlockStatement (cg : CodeGenerator) : BlockStatement → CodeGenerator
  | .mk stmts =>
      let blockVariables := backupVariables cg
      let cg1 := generateStatementList cg stmts
      { cg1 with vars := blockVariables }

/-- Sequential generation of a statement list (the loop bodies of
`generateBlockStatement`, `generateFunctionBody`, `generateMainFunction`). -/
def generateStatementList (cg : CodeGenerator) : List Statement → CodeGenerator
  | [] => cg
  | s :: rest => generateStatementList (generateStatement cg s) rest
end

/-! ## Whole-program generation (codegen.go: `Generate`)

`generateFunctionDeclarations` and `generateFunctionDefinitions` range
over the Go map `cg.functions`, whose iteration order is unspecified
(and randomized between runs).  The two loops are modelled by explicit
key lists `declOrder` and `defOrder`; a run of the Go program
corresponds to some pair of permutations of the table's keys. -/

/-- The fixed `#include` block written at the top of `Generate`. -/
def includeBlock : String :=
  "#include <stdio.h>\n#include <string.h>\n#include <stdlib.h>\n\n"

/-- `generateStringConcatHelper`: the `concat_strings` helper emitted
into every program. -/
def generateStringConcatHelper : String :=
  "char* concat_strings(const char* a, const char* b) \x7b\n" ++
  "    char* result = malloc(strlen(a) + strlen(b) + 1);\n" ++
  "    strcpy(result, a);\n" ++
  "    strcat(result, b);\n" ++
  "    return result;\n" ++
  "\x7d\n\n"

/-- `extractFunctions` (pass 1): named `FunctionStatement`s and
top-level anonymous `FunctionLiteral` expression statements move into
the function table (anonymous ones named `func_<counter>`); everything
else stays for `main`, in order. -/
def extractFunctions (cg : CodeGenerator) :
    List Statement → CodeGenerator × List Statement
  | [] => (cg, [])
  | s :: rest =>
      match s with
      | .functionStatement n ps b =>
          extractFunctions
            { cg with functions := insertKey cg.functions n ⟨ps, b⟩ } rest
      | .expressionStatement (.functionLiteral ps b) =>
          extractFunctions
            { cg with
                functions :=
                  insertKey cg.functions ("func_" ++ toString cg.funcCounter) ⟨ps, b⟩
                funcCounter := cg.funcCounter + 1 } rest
      | _ =>
          let (cg2, rest2) := extractFunctions cg rest
          (cg2, s :: rest2)

/-- The C parameter list `"int a, int b"` written by the parameter
loops of `generateFunctionDeclaration` and `generateFunctionHeader`. -/
def paramListC : List String → String
  | [] => ""
  | [p] => "int " ++ p
  | p :: rest => "int " ++ p ++ ", " ++ paramListC rest

/-- `generateFunctionHeader` also records every parameter as an `int`
variable in the current (freshly emptied) scope. -/
def registerParams (vars : List (String × String)) : List String → List (String × String)
  | [] => vars
  | p :: rest => registerParams (insertKey vars p "int") rest

/-- `generateFunctionDeclaration` for one key of the function table.
Go map iteration only yields present keys, so the `none` branch is
unreachable for the orders `Generate` is instantiated at. -/
def generateFunctionDeclaration (cg : CodeGenerator) (name : String) : CodeGenerator :=
  match lookupKey cg.functions name with
  | some fl =>
      { cg with output := cg.output ++ "int " ++ name ++ "(" ++
          paramListC fl.parameters ++ ");\n" }
  | none => cg

/-- `generateFunctionDeclarations`: one forward declaration per
function, in map-iteration order, then a blank line. -/
def generateFunctionDeclarations (cg : CodeGenerator) (declOrder : List String) :
    CodeGenerator :=
  let cg1 := declOrder.foldl generateFunctionDeclaration cg
  { cg1 with output := cg1.output ++ "\n" }

/-- `hasExplicitReturn`: the body's last statement is a return. -/
def hasExplicitReturn (fl : FunctionLit) : Bool :=
  match fl.body.statements.getLast? with
  | some (.returnStatement _) => true
  | _ => false

/-- `generateFunctionDefinition`: save the variable map and current
function, emit against a fresh scope holding the parameters, append
`return 0;` when the body does not end in a return, and restore. -/
def generateFunctionDefinition (cg : CodeGenerator) (name : String)
    (fl : FunctionLit) : CodeGenerator :=
  let oldVariables := backupVariables cg
  let oldFunc := cg.currentFunc
  let header := cg.output ++ "int " ++ name ++ "(" ++ paramListC fl.parameters ++ ") \x7b\n"
  let cg1 := { cg with
    output := header
    vars := registerParams [] fl.parameters
    currentFunc := some fl }
  let cg2 := generateStatementList cg1 fl.body.statements
  let cg3 :=
    if hasExplicitReturn fl then cg2
    else { cg2 with output := cg2.output ++ "    return 0;\n" }
  let cg4 := { cg3 with output := cg3.output ++ "\x7d\n" }
  { cg4 with vars := oldVariables, currentFunc := oldFunc }

/-- `generateFunctionDefinitions`: one definition per function, in
map-iteration order, each followed by a blank line. -/
def generateFunctionDefinitions (cg : CodeGenerator) : List String → CodeGenerator
  | [] => cg
  | name :: rest =>
      match lookupKey cg.functions name with
      | some fl =>
          let cg1 := generateFunctionDefinition cg name fl
          generateFunctionDefinitions { cg1 with output := cg1.output ++ "\n" } rest
      | none => generateFunctionDefinitions cg rest

/-- `generateMainFunction`: the leftover statements inside
`int main()`, closed by `return 0;`. -/
def generateMainFunction (cg : CodeGenerator) (stmts : List Statement) : CodeGenerator :=
  let cg1 := { cg with output := cg.output ++ "int main() \x7b\n" }
  let cg2 := generateStatementList cg1 stmts
  { cg2 with output := cg2.output ++ "    return 0;\n\x7d\n" }

/-- `Generate`: reset state, write includes and the concat helper,
extract functions, emit forward declarations (ranging over the function
map in `declOrder`), definitions (in `defOrder`), and `main`. -/
def Generate (program : List Statement) (declOrder defOrder : List String) : String :=
  let cg := CodeGenerator.new
  let cg := { cg with output := includeBlock ++ generateStringConcatHelper }
  let (cg, mainStatements) := extractFunctions cg program
  let cg := generateFunctionDeclarations cg declOrder
  let cg := generateFunctionDefinitions cg defOrder
  let cg := generateMainFunction cg mainStatements
  cg.output

/-- The keys of the generator's function table, in insertion order. -/
def functionKeys (cg : CodeGenerator) : List String :=
  cg.functions.map Prod.fst

/-! ## Lexer (lexer/lexer.go)

The Go lexer keeps `position` and `readPosition = position + 1` (the
invariant holds from `New` on, since every `readChar` sets
`position = readPosition` and increments `readPosition`), so a single
cursor suffices.  `l.ch` is the byte at the cursor, with 0 past the end
of input.  The scanning loops are bounded by the remaining input, so
they are defined on an explicit fuel argument; the exported wrappers
supply `remFuel`, which is always sufficient, keeping every function
total and computable — the Go tokenizer's termination is witnessed by
these definitions being accepted as total functions. -/

/-- The NUL sentinel Go uses for "past end of input". -/
def nulChar : Char := '\x00'

/-- The `{` and `}` bytes. -/
def lbraceChar : Char := Char.ofNat 123

def rbraceChar : Char := Char.ofNat 125

structure Lexer where
  input : List Char
  pos : Nat
deriving DecidableEq, Repr

/-- `l.ch`: the current byte, 0 at or past end of input. -/
def Lexer.ch (l : Lexer) : Char := l.input.getD l.pos nulChar

/-- `peekChar`: one byte of lookahead, 0 past end of input. -/
def Lexer.peekChar (l : Lexer) : Char := l.input.getD (l.pos + 1) nulChar

/-- `readChar`: advance the cursor. -/
def readChar (l : Lexer) : Lexer := { l with pos := l.pos + 1 }

/-- `lexer.New` (after its initial `readChar`, the cursor is at 0). -/
def Lexer.fromString (s : String) : Lexer := { input := s.data, pos := 0 }

/-- `isLetter`: letters and underscore. -/
def isLetter (c : Char) : Bool :=
  ('a' ≤ c && c ≤ 'z') || ('A' ≤ c && c ≤ 'Z') || c = '_'

/-- `isDigit`. -/
def isDigit (c : Char) : Bool :=
  '0' ≤ c && c ≤ '9' 

/-- The whitespace set of `skipWhitespace`. -/
def isWhitespaceGo (c : Char) : Bool :=
  c = ' ' || c = '\t' || c = '\n' || c = '\r'

/-- Fuel that bounds every scanning loop: one more than the remaining
input length. -/
def remFuel (l : Lexer) : Nat := l.input.length + 1 - l.pos

/-- The loop of `skipWhitespace`. -/
def skipWhitespaceF : Nat → Lexer → Lexer
  | 0, l => l
  | n + 1, l => if isWhitespaceGo l.ch then skipWhitespaceF n (readChar l) else l

/-- `skipWhitespace`. -/
def skipWhitespace (l : Lexer) : Lexer := skipWhitespaceF (remFuel l) l

/-- The loop of `skipLineComment`: advance until newline or end. -/
def lineLoopF : Nat → Lexer → Lexer
  | 0, l => l
  | n + 1, l => if l.ch ≠ '\n' && l.ch ≠ nulChar then lineLoopF n (readChar l) else l

/-- `skipLineComment`: skip to end of line, then whitespace. -/
def skipLineComment (l : Lexer) : Lexer :=
  skipWhitespace (lineLoopF (remFuel l) l)

/-- The loop of `skipBlockComment`: advance until `*/` (consuming it)
or end of input. -/
def blockLoopF : Nat → Lexer → Lexer
  | 0, l => l
  | n + 1, l =>
      if l.ch = nulChar then l
      else if l.ch = '*' && l.peekChar = '/' then readChar (readChar l)
      else blockLoopF n (readChar l)

/-- `skipBlockComment`: skip `/*`, scan to `*/` or end, then whitespace. -/
def skipBlockComment (l : Lexer) : Lexer :=
  let l2 := readChar (readChar l)
  skipWhitespace (blockLoopF (remFuel l2) l2)

/-- The scan loop of `readString`: advance until a closing quote or end
of input (an embedded NUL byte also stops the Go loop, since it equals
the sentinel). -/
def scanStringF : Nat → Lexer → Lexer
  | 0, l => l
  | n + 1, l =>
      if l.ch ≠ '"' && l.ch ≠ nulChar then scanStringF n (readChar l) else l

/-- `readString`: skip the opening quote, scan, slice the literal, and
skip the closing quote when present. -/
def readString (l : Lexer) : String × Lexer :=
  let l1 := readChar l
  let start := l1.pos
  let l2 := scanStringF (remFuel l1) l1
  let result := String.mk ((l2.input.drop start).take (l2.pos - start))
  if l2.ch = '"' then (result, readChar l2) else (result, l2)

/-- The loop of `readIdentifier`. -/
def identLoopF : Nat → Lexer → Lexer
  | 0, l => l
  | n + 1, l => if isLetter l.ch then identLoopF n (readChar l) else l

/-- `readIdentifier`: the maximal letter/underscore run at the cursor. -/
def readIdentifier (l : Lexer) : String × Lexer :=
  let l2 := identLoopF (remFuel l) l
  (String.mk ((l2.input.drop l.pos).take (l2.pos - l.pos)), l2)

/-- The loop of `readNumber`. -/
def digitLoopF : Nat → Lexer → Lexer
  | 0, l => l
  | n + 1, l => if isDigit l.ch then digitLoopF n (readChar l) else l

/-- `readNumber`: the maximal digit run at the cursor. -/
def readNumber (l : Lexer) : String × Lexer :=
  let l2 := digitLoopF (remFuel l) l
  (String.mk ((l2.input.drop l.pos).take (l2.pos - l.pos)), l2)

/-- `LookupIdent`: the keyword table. -/
def LookupIdent (ident : String) : TokenType :=
  if ident = "print" then .PRINT
  else if ident = "var" then .VAR
  else if ident = "if" then .IF
  else if ident = "extern" then .EXTERN
  else if ident = "func" then .FUNC
  else if ident = "return" then .RETURN
  else .IDENT

/-- The `switch l.ch` body of `NextToken` (after whitespace and comment
skipping); cases that fall through the switch end with the final
`l.readChar()`. -/
def tokenSwitch (l : Lexer) : Token × Lexer :=
  let c := l.ch
  if c = '"' then
    let (s, l2) := readString l
    (⟨.STRING, s⟩, l2)
  else if c = '=' then
    if l.peekChar = '=' then (⟨.EQ, "=="⟩, readChar (readChar l))
    else (⟨.ASSIGN, "="⟩, readChar l)
  else if c = '!' then
    if l.peekChar = '=' then (⟨.NOT_EQ, "!="⟩, readChar (readChar l))
    else (⟨.ILLEGAL, "!"⟩, readChar l)
  else if c = ':' then (⟨.COLON, ":"⟩, readChar l)
  else if c = '.' then
    if l.peekChar = '.' then
      let l2 := readChar l
      if l2.peekChar = '.' then (⟨.ELLIPSIS, "..."⟩, readChar (readChar l2))
      else (⟨.ILLEGAL, "."⟩, readChar l2)
    else (⟨.DOT, "."⟩, readChar l)
  else if c = lbraceChar then (⟨.LBRACE, String.singleton c⟩, readChar l)
  else if c = rbraceChar then (⟨.RBRACE, String.singleton c⟩, readChar l)
  else if c = '+' then (⟨.PLUS, "+"⟩, readChar l)
  else if c = '-' then (⟨.MINUS, "-"⟩, readChar l)
  else if c = '*' then (⟨.ASTERISK, "*"⟩, readChar l)
  else if c = '/' then (⟨.SLASH, "/"⟩, readChar l)
  else if c = ',' then (⟨.COMMA, ","⟩, readChar l)
  else if c = ';' then (⟨.SEMICOLON, ";"⟩, readChar l)
  else if c = '(' then (⟨.LPAREN, "("⟩, readChar l)
  else if c = ')' then (⟨.RPAREN, ")"⟩, readChar l)
  else if c = nulChar then (⟨.EOF, ""⟩, readChar l)
  else if isLetter c then
    let (s, l2) := readIdentifier l
    (⟨LookupIdent s, s⟩, l2)
  else if isDigit c then
    let (s, l2) := readNumber l
    (⟨.INT, s⟩, l2)
  else (⟨.ILLEGAL, String.singleton c⟩, readChar l)

/-- `NextToken` with fuel bounding the comment-skipping recursion (at
fuel 0 any further comment opener is treated as the switch would treat
it; `remFuel` makes this unreachable). -/
def nextTokenF : Nat → Lexer → Token × Lexer
  | 0, l => tokenSwitch (skipWhitespace l)
  | n + 1, l0 =>
      let l := skipWhitespace l0
      if l.ch = '/' && l.peekChar = '/' then nextTokenF n (skipLineComment l)
      else if l.ch = '/' && l.peekChar = '*' then nextTokenF n (skipBlockComment l)
      else tokenSwitch l

/-- `NextToken`. -/
def nextToken (l : Lexer) : Token × Lexer := nextTokenF (remFuel l) l

/-- The token returned by the (k+1)-st call to `NextToken` from state
`l`. -/
def tokenAt (l : Lexer) : Nat → Token
  | 0 => (nextToken l).1
  | k + 1 => tokenAt (nextToken l).2 k

/-! ## Parser (parser.go)

The parser pulls tokens from the lexer one at a time and keeps a
two-token window (`curToken`, `peekToken`).  It is modelled over the
token sequence the lexer delivers: `rest` is the stream still to be
read, and an exhausted stream keeps yielding the EOF token, exactly as
the lexer does.  The recursive-descent functions are defined on an
explicit fuel argument (first parameter); every parse consumes input on
the paths that recurse, so a fuel larger than the token count makes the
fuel-exhaustion branches (which return an absent node and touch
nothing) unreachable. -/

/-- The token an exhausted lexer keeps returning. -/
def eofToken : Token := ⟨.EOF, ""⟩

/-- `parser.Parser`: the two-token window, the undelivered stream, and
the diagnostics list. -/
structure Parser where
  cur : Token
  peek : Token
  rest : List Token
  errors : List String
deriving DecidableEq, Repr

/-- `p.nextToken()`: slide the window. -/
def pNextToken (p : Parser) : Parser :=
  { p with cur := p.peek, peek := p.rest.headD eofToken, rest := p.rest.tail }

/-- `parser.New` (after its two initializing `nextToken` calls). -/
def Parser.new (ts : List Token) : Parser :=
  { cur := ts.getD 0 eofToken, peek := ts.getD 1 eofToken,
    rest := ts.drop 2, errors := [] }

def curTokenIs (p : Parser) (t : TokenType) : Bool := p.cur.type = t

def peekTokenIs (p : Parser) (t : TokenType) : Bool := p.peek.type = t

/-- `peekError`: the "expected X, got Y" diagnostic. -/
def peekError (p : Parser) (t : TokenType) : Parser :=
  { p with errors := p.errors ++
      ["expected next token to be " ++ t.goString ++ ", got " ++
        p.peek.type.goString ++ " instead"] }

/-- `expectPeek`: advance on match, record a diagnostic otherwise. -/
def expectPeek (p : Parser) (t : TokenType) : Bool × Parser :=
  if peekTokenIs p t then (true, pNextToken p) else (false, peekError p t)

/-- `noPrefixParseFnError`. -/
def noPrefixParseFnError (p : Parser) (t : TokenType) : Parser :=
  { p with errors := p.errors ++
      ["no prefix parse function for " ++ t.goString ++ " found"] }

/-- The `iota` precedence constants: `LOWEST`. -/
def LOWEST : Nat := 1

/-- `EQUALS` (the unused `LESSGREATER` is 3). -/
def EQUALS : Nat := 2

/-- `SUM`. -/
def SUM : Nat := 4

/-- `PRODUCT` (the unused unary and call levels are 6 and 7). -/
def PRODUCT : Nat := 5

/-- The `precedences` map of infix token kinds. -/
def precedences : TokenType → Option Nat
  | .EQ => some EQUALS
  | .NOT_EQ => some EQUALS
  | .PLUS => some SUM
  | .MINUS => some SUM
  | .ASTERISK => some PRODUCT
  | .SLASH => some PRODUCT
  | _ => none

/-- `curPrecedence`. -/
def curPrecedence (p : Parser) : Nat := (precedences p.cur.type).getD LOWEST

/-- `peekPrecedence`. -/
def peekPrecedence (p : Parser) : Nat := (precedences p.peek.type).getD LOWEST

/-- The token kinds registered in `prefixParseFns`. -/
def hasPrefixRule : TokenType → Bool
  | .IDENT | .INT | .STRING | .LPAREN | .FUNC => true
  | _ => false

/-- The token kinds registered in `infixParseFns`. -/
def hasInfixRule : TokenType → Bool
  | .PLUS | .MINUS | .ASTERISK | .SLASH | .EQ | .NOT_EQ => true
  | _ => false

/-- A Go `ast.Expression` interface value: `nil` stays `nil` when the
parser stores a failed sub-parse into a node field. -/
def orNil : Option Expression → Expression
  | some e => e
  | none => .nilExpression

/-- Accumulate an optional statement/expression the way the Go code
appends only non-nil values. -/
def appendIfSome {α : Type} (acc : List α) : Option α → List α
  | some a => acc ++ [a]
  | none => acc

/-- Base-`b` value of a digit run; `none` on a digit outside the base. -/
def digitsVal (b : Nat) : List Char → Nat → Option Nat
  | [], acc => some acc
  | c :: cs, acc =>
      let d := c.toNat - Char.toNat '0'
      if isDigit c && d < b then digitsVal b cs (acc * b + d) else none

/-- Modelled `strconv.ParseInt(s, 0, 64)` on the literals the lexer can
produce (maximal decimal digit runs, no sign, no base prefix letters):
a run starting with `0` is parsed as octal (so a digit `8` or `9`
after a leading zero is a syntax error), anything else as decimal, and
a value above `2^63 - 1` is a range error; both errors are `none`. -/
def goParseInt (s : String) : Option Int :=
  match s.toList with
  | [] => none
  | c :: cs =>
      if c = '0' && cs = [] then some 0
      else
        let parsed := if c = '0' then digitsVal 8 cs 0 else digitsVal 10 (c :: cs) 0
        match parsed with
        | some v => if v ≤ 9223372036854775807 then some (Int.ofNat v) else none
        | none => none

/-- `parseExternStatement` (non-recursive): only `extern name;` parses;
a missing identifier records a diagnostic, while `extern name` followed
by anything but a semicolon returns nil with no diagnostic. -/
def parseExternStatement (p : Parser) : Option Statement × Parser :=
  let (ok, p) := expectPeek p .IDENT
  if ok then
    let name := p.cur.literal
    if peekTokenIs p .SEMICOLON then (some (.externStatement name), pNextToken p)
    else (none, p)
  else (none, p)

/-- `parseFunctionParameters`: comma-separated identifier literals up to
`)`; `none` models the Go nil slice returned when the `)` is missing.
The comma loop consumes two tokens per round, so `rest.length + 2` fuel
always suffices. -/
def paramsLoopF : Nat → Parser → List String → List String × Parser
  | 0, p, acc => (acc, p)
  | n + 1, p, acc =>
      if peekTokenIs p .COMMA then
        let p := pNextToken (pNextToken p)
        paramsLoopF n p (acc ++ [p.cur.literal])
      else (acc, p)

def parseFunctionParameters (p : Parser) : Option (List String) × Parser :=
  if peekTokenIs p .RPAREN then (some [], pNextToken p)
  else
    let p := pNextToken p
    let (ids, p) := paramsLoopF (p.rest.length + 2) p [p.cur.literal]
    let (ok, p) := expectPeek p .RPAREN
    if ok then (some ids, p) else (none, p)

mutual
/-- `parseExpression`: run the prefix rule for the current token (or
record `noPrefixParseFnError` and return nil), then greedily consume
`(`-call suffixes, then run the infix loop at the given precedence. -/
def parseExpression : Nat → Parser → Nat → Option Expression × Parser
  | 0, p, _ => (none, p)
  | n + 1, p, prec =>
      if hasPrefixRule p.cur.type then
        let (left, p) := runPrefixRule n p
        let (left, p) := callLoop n p left
        infixLoop n p left prec
      else (none, noPrefixParseFnError p p.cur.type)

/-- The registered prefix rules: `parseIdentifier`,
`parseIntegerLiteral` (whose `strconv.ParseInt` failure records a
diagnostic and returns nil), `parseStringLiteral`,
`parseGroupedExpression`, `parseFunctionLiteral`. -/
def runPrefixRule : Nat → Parser → Option Expression × Parser
  | 0, p => (none, p)
  | n + 1, p =>
      match p.cur.type with
      | .IDENT => (some (.identifier p.cur.literal), p)
      | .INT =>
          match goParseInt p.cur.literal with
          | some v => (some (.integerLiteral v), p)
          | none =>
              (none, { p with errors := p.errors ++
                ["could not parse \"" ++ p.cur.literal ++ "\" as integer"] })
      | .STRING => (some (.stringLiteral p.cur.literal), p)
      | .LPAREN => parseGroupedExpression n p
      | .FUNC => parseFunctionLiteral n p
      | _ => (none, p)

/-- The `for p.peekTokenIs(LPAREN)` loop of `parseExpression`. -/
def callLoop : Nat → Parser → Option Expression → Option Expression × Parser
  | 0, p, left => (left, p)
  | n + 1, p, left =>
      if peekTokenIs p .LPAREN then
        let p := pNextToken p
        let (left2, p) := parseFunctionCall n p left
        callLoop n p left2
      else (left, p)

/-- `parseFunctionCall`: nil function gives nil (the `(` was already
consumed); otherwise the argument list is parsed, a Go nil slice
becoming an empty list. -/
def parseFunctionCall : Nat → Parser → Option Expression → Option Expression × Parser
  | 0, p, _ => (none, p)
  | n + 1, p, function =>
      match function with
      | none => (none, p)
      | some f =>
          let (args, p) := parseExpressionList n p .RPAREN
          (some (.functionCall f (args.getD [])), p)

/-- `parseExpressionList`: comma-separated expressions up to the given
closing delimiter; a missing delimiter records a diagnostic (via
`expectPeek`) and returns the Go nil slice, `none`. -/
def parseExpressionList : Nat → Parser → TokenType → Option (List Expression) × Parser
  | 0, p, _ => (none, p)
  | n + 1, p, endT =>
      if peekTokenIs p endT then (some [], pNextToken p)
      else
        let p := pNextToken p
        let (e, p) := parseExpression n p LOWEST
        let (lst, p) := exprListLoop n p (appendIfSome [] e)
        let (ok, p) := expectPeek p endT
        if ok then (some lst, p) else (none, p)

/-- The `for p.peekTokenIs(COMMA)` loop of `parseExpressionList`. -/
def exprListLoop : Nat → Parser → List Expression → List Expression × Parser
  | 0, p, acc => (acc, p)
  | n + 1, p, acc =>
      if peekTokenIs p .COMMA then
        let p := pNextToken (pNextToken p)
        let (e, p) := parseExpression n p LOWEST
        exprListLoop n p (appendIfSome acc e)
      else (acc, p)

/-- The `for !peekTokenIs(SEMICOLON) && precedence < peekPrecedence`
loop of `parseExpression`; an operator without an infix rule ends the
loop. -/
def infixLoop : Nat → Parser → Option Expression → Nat → Option Expression × Parser
  | 0, p, left, _ => (left, p)
  | n + 1, p, left, prec =>
      if !peekTokenIs p .SEMICOLON && decide (prec < peekPrecedence p) then
        if hasInfixRule p.peek.type then
          let p := pNextToken p
          let (e, p) := parseInfixExpression n p left
          infixLoop n p (some e) prec
        else (left, p)
      else (left, p)

/-- `parseInfixExpression`: capture the operator and its precedence,
advance, and parse the right operand at that precedence (a nil operand
is stored as a nil field). -/
def parseInfixExpression : Nat → Parser → Option Expression → Expression × Parser
  | 0, p, left => (.infixExpression (orNil left) p.cur.literal .nilExpression, p)
  | n + 1, p, left =>
      let op := p.cur.literal
      let prec := curPrecedence p
      let p := pNextToken p
      let (right, p) := parseExpression n p prec
      (.infixExpression (orNil left) op (orNil right), p)

/-- `parseGroupedExpression`. -/
def parseGroupedExpression : Nat → Parser → Option Expression × Parser
  | 0, p => (none, p)
  | n + 1, p =>
      let p := pNextToken p
      let (e, p) := parseExpression n p LOWEST
      let (ok, p) := expectPeek p .RPAREN
      if ok then (e, p) else (none, p)

/-- `parseFunctionLiteral`. -/
def parseFunctionLiteral : Nat → Parser → Option Expression × Parser
  | 0, p => (none, p)
  | n + 1, p =>
      let (ok, p) := expectPeek p .LPAREN
      if ok then
        let (params, p) := parseFunctionParameters p
        let (ok2, p) := expectPeek p .LBRACE
        if ok2 then
          let (body, p) := parseBlockStatement n p
          (some (.functionLiteral (params.getD []) body), p)
        else (none, p)
      else (none, p)

/-- `parseBlockStatement`: advance past `{` and run the brace-counting
loop starting at depth 1. -/
def parseBlockStatement : Nat → Parser → BlockStatement × Parser
  | 0, p => (.mk [], p)
  | n + 1, p => blockLoop n (pNextToken p) 1 []

/-- The brace-counting loop of `parseBlockStatement`: `{` deepens, the
matching `}` breaks with the cursor on it, inner statements accumulate
(a nil statement is dropped), and the loop also stops at EOF. -/
def blockLoop : Nat → Parser → Nat → List Statement → BlockStatement × Parser
  | 0, p, _, acc => (.mk acc, p)
  | n + 1, p, braceCount, acc =>
      if braceCount > 0 && !curTokenIs p .EOF then
        if curTokenIs p .LBRACE then
          let (st, p) := parseStatement n p
          let acc := appendIfSome acc st
          let p := if !curTokenIs p .EOF then pNextToken p else p
          blockLoop n p (braceCount + 1) acc
        else if curTokenIs p .RBRACE then
          if braceCount - 1 = 0 then (.mk acc, p)
          else
            let (st, p) := parseStatement n p
            let acc := appendIfSome acc st
            let p := if !curTokenIs p .EOF then pNextToken p else p
            blockLoop n p (braceCount - 1) acc
        else
          let (st, p) := parseStatement n p
          let acc := appendIfSome acc st
          let p := if !curTokenIs p .EOF then pNextToken p else p
          blockLoop n p braceCount acc
      else (.mk acc, p)

/-- `parseStatement`: dispatch on the current token kind; tokens with
no statement rule (Go's `default`) return nil with no diagnostic. -/
def parseStatement : Nat → Parser → Option Statement × Parser
  | 0, p => (none, p)
  | n + 1, p =>
      match p.cur.type with
      | .VAR => parseLetStatement n p
      | .PRINT => parsePrintStatement n p
      | .IF => parseIfStatement n p
      | .EXTERN => parseExternStatement p
      | .RETURN => parseReturnStatement n p
      | .FUNC => parseFunctionStatement n p
      | .LBRACE =>
          let (b, p) := parseBlockStatement n p
          (some (.blockStatement b), p)
      | .IDENT =>
          if peekTokenIs p .ASSIGN then parseAssignmentStatement n p
          else
            let (e, p) := parseExpression n p LOWEST
            match e with
            | some e2 => (some (.expressionStatement e2), p)
            | none => (none, p)
      | _ => (none, p)

/-- `parseLetStatement`: `var x;`, `var x = e;`, or bare `var x` (the
initializer stays nil unless an `=` follows). -/
def parseLetStatement : Nat → Parser → Option Statement × Parser
  | 0, p => (none, p)
  | n + 1, p =>
      let (ok, p) := expectPeek p .IDENT
      if ok then
        let name := p.cur.literal
        if peekTokenIs p .SEMICOLON then
          (some (.letStatement name .nilExpression), pNextToken p)
        else if peekTokenIs p .ASSIGN then
          let p := pNextToken (pNextToken p)
          let (v, p) := parseExpression n p LOWEST
          let p := if peekTokenIs p .SEMICOLON then pNextToken p else p
          (some (.letStatement name (orNil v)), p)
        else
          (some (.letStatement name .nilExpression), p)
      else (none, p)

/-- `parsePrintStatement`: `print ( expr )` with an optional trailing
semicolon. -/
def parsePrintStatement : Nat → Parser → Option Statement × Parser
  | 0, p => (none, p)
  | n + 1, p =>
      let (ok, p) := expectPeek p .LPAREN
      if ok then
        let p := pNextToken p
        let (v, p) := parseExpression n p LOWEST
        let (ok2, p) := expectPeek p .RPAREN
        if ok2 then
          let p := pNextToken p
          let p := if peekTokenIs p .SEMICOLON then pNextToken p else p
          (some (.printStatement (orNil v)), p)
        else (none, p)
      else (none, p)

/-- `parseIfStatement`: condition, `{`, consequence block; the
`Alternative` is always left nil. -/
def parseIfStatement : Nat → Parser → Option Statement × Parser
  | 0, p => (none, p)
  | n + 1, p =>
      let p := pNextToken p
      let (cond, p) := parseExpression n p LOWEST
      let (ok, p) := expectPeek p .LBRACE
      if ok then
        let (cons, p) := parseBlockStatement n p
        (some (.ifStatement (orNil cond) cons none), p)
      else (none, p)

/-- `parseReturnStatement`: the operand is optional (nil when a
semicolon immediately follows `return`). -/
def parseReturnStatement : Nat → Parser → Option Statement × Parser
  | 0, p => (none, p)
  | n + 1, p =>
      let p := pNextToken p
      let (v, p) :=
        if !curTokenIs p .SEMICOLON then
          let (e, p) := parseExpression n p LOWEST
          (orNil e, p)
        else (Expression.nilExpression, p)
      let p := if peekTokenIs p .SEMICOLON then pNextToken p else p
      (some (.returnStatement v), p)

/-- `parseFunctionStatement`: `func name ( params ) { body }`. -/
def parseFunctionStatement : Nat → Parser → Option Statement × Parser
  | 0, p => (none, p)
  | n + 1, p =>
      let (ok, p) := expectPeek p .IDENT
      if ok then
        let name := p.cur.literal
        let (ok2, p) := expectPeek p .LPAREN
        if ok2 then
          let (params, p) := parseFunctionParameters p
          let (ok3, p) := expectPeek p .LBRACE
          if ok3 then
            let (body, p) := parseBlockStatement n p
            (some (.functionStatement name (params.getD []) body), p)
          else (none, p)
        else (none, p)
      else (none, p)

/-- `parseAssignmentStatement`: `name = expr` with optional semicolon. -/
def parseAssignmentStatement : Nat → Parser → Option Statement × Parser
  | 0, p => (none, p)
  | n + 1, p =>
      let name := p.cur.literal
      let (ok, p) := expectPeek p .ASSIGN
      if ok then
        let p := pNextToken p
        let (v, p) := parseExpression n p LOWEST
        let p := if peekTokenIs p .SEMICOLON then pNextToken p else p
        (some (.assignmentStatement name (orNil v)), p)
      else (none, p)
end

/-- The statement loop of `ParseProgram`: parse until EOF, keeping
non-nil statements and advancing between statements. -/
def parseProgramLoop : Nat → Parser → List Statement → List Statement × Parser
  | 0, p, acc => (acc, p)
  | n + 1, p, acc =>
      if curTokenIs p .EOF then (acc, p)
      else
        let (st, p) := parseStatement n p
        let acc := appendIfSome acc st
        let p := if !curTokenIs p .EOF then pNextToken p else p
        parseProgramLoop n p acc

/-- `ParseProgram` on a delivered token sequence. -/
def ParseProgram (fuel : Nat) (ts : List Token) : List Statement × Parser :=
  parseProgramLoop fuel (Parser.new ts) []

/-! ## Claim C9: assignment to an undeclared name declares it -/

/-- Claim C9: an assignment to a name absent from the symbol table is
not an error — the generator declares the variable there (`char*` if
the right-hand side is string-typed, `int` otherwise), records it in
the table, and initializes it; an assignment to a recorded name emits a
plain assignment with no declaration and leaves the table unchanged. -/
theorem assignment_declares_or_assigns (cg : CodeGenerator) (name : String)
    (v : Expression) :
    (lookupKey cg.vars name = none → expressionIsString cg.vars v = true →
      generateStatement cg (.assignmentStatement name v) =
        { cg with
            vars := insertKey cg.vars name "string"
            output := cg.output ++ "    char* " ++ name ++ " = " ++
              generateExpression (insertKey cg.vars name "string") v ++ ";\n" }) ∧
    (lookupKey cg.vars name = none → expressionIsString cg.vars v = false →
      generateStatement cg (.assignmentStatement name v) =
        { cg with
            vars := insertKey cg.vars name "int"
            output := cg.output ++ "    int " ++ name ++ " = " ++
              generateExpression (insertKey cg.vars name "int") v ++ ";\n" }) ∧
    (∀ t, lookupKey cg.vars name = some t →
      generateStatement cg (.assignmentStatement name v) =
        { cg with output := cg.output ++ "    " ++ name ++ " = " ++
            generateExpression cg.vars v ++ ";\n" }) := by
  refine ⟨fun h hs => ?_, fun h hs => ?_, fun t h => ?_⟩
  · simp [generateStatement, generateAssignmentStatement, h, hs]
  · simp [generateStatement, generateAssignmentStatement, h, hs]
  · simp [generateStatement, generateAssignmentStatement, h]

/-- Witness for C9 at concrete inputs: first assignment of a string
literal to `s` declares `char* s`, of an integer to `n` declares
`int n`, and a second assignment to a recorded name emits no
declaration. -/
theorem assignment_declares_or_assigns_witness :
    generateStatement CodeGenerator.new
        (.assignmentStatement "s" (.stringLiteral "hi")) =
      { CodeGenerator.new with
          vars := [("s", "string")]
          output := "    char* s = \"hi\";\n" } ∧
    generateStatement CodeGenerator.new
        (.assignmentStatement "n" (.integerLiteral 3)) =
      { CodeGenerator.new with
          vars := [("n", "int")]
          output := "    int n = 3;\n" } ∧
    generateStatement { CodeGenerator.new with vars := [("n", "int")] }
        (.assignmentStatement "n" (.integerLiteral 4)) =
      { CodeGenerator.new with
          vars := [("n", "int")]
          output := "    n = 4;\n" } := by
  refine ⟨?_, ?_, ?_⟩
  · have h := (assignment_declares_or_assigns CodeGenerator.new "s"
      (.stringLiteral "hi")).1 (by rfl) (by rfl)
    simpa using h
  · have h := (assignment_declares_or_assigns CodeGenerator.new "n"
      (.integerLiteral 3)).2.1 (by rfl) (by rfl)
    simpa using h
  · have h := (assignment_declares_or_assigns
      { CodeGenerator.new with vars := [("n", "int")] } "n"
      (.integerLiteral 4)).2.2 "int" (by rfl)
    simpa using h

/-! ## Claim C6: string concatenation emission -/

/-- Claim C6: a string-typed `+` of two literals is folded into one C
literal; literal with string-typed identifier (either order) becomes a
`concat_strings` call with the operands in source order; and `+` on two
identifiers is emitted as plain arithmetic, never as `concat_strings`. -/
theorem stringConcat_emission :
    (∀ (vars : List (String × String)) (s t : String),
      generateExpression vars
          (.infixExpression (.stringLiteral s) "+" (.stringLiteral t)) =
        "\"" ++ s ++ t ++ "\"") ∧
    (∀ (vars : List (String × String)) (s y : String),
      lookupKey vars y = some "string" →
      generateExpression vars
          (.infixExpression (.stringLiteral s) "+" (.identifier y)) =
        "concat_strings(\"" ++ s ++ "\", " ++ y ++ ")") ∧
    (∀ (vars : List (String × String)) (s y : String),
      lookupKey vars y = some "string" →
      generateExpression vars
          (.infixExpression (.identifier y) "+" (.stringLiteral s)) =
        "concat_strings(" ++ y ++ ", \"" ++ s ++ "\")") ∧
    (∀ (vars : List (String × String)) (x y : String),
      generateExpression vars
          (.infixExpression (.identifier x) "+" (.identifier y)) =
        x ++ " + " ++ y) := by
  refine ⟨fun vars s t => ?_, fun vars s y h => ?_, fun vars s y h => ?_,
    fun vars x y => ?_⟩
  · simp [generateExpression, isSimpleStringConcat, isStringLiteralNode,
      generateSimpleStringConcat]
  · simp [generateExpression, isSimpleStringConcat, isStringLiteralNode,
      isStringVariable, generateSimpleStringConcat, h]
  · simp [generateExpression, isSimpleStringConcat, isStringLiteralNode,
      isStringVariable, generateSimpleStringConcat, h]
  · simp [generateExpression, isSimpleStringConcat, isStringLiteralNode,
      isStringVariable, isStringComparison, expressionIsString,
      String.append_assoc]

/-- Witness for C6 at concrete inputs. -/
theorem stringConcat_emission_witness :
    generateExpression []
        (.infixExpression (.stringLiteral "a") "+" (.stringLiteral "b")) = "\"ab\"" ∧
    generateExpression [("y", "string")]
        (.infixExpression (.stringLiteral "a") "+" (.identifier "y")) =
      "concat_strings(\"a\", y)" ∧
    generateExpression [("y", "string")]
        (.infixExpression (.identifier "y") "+" (.stringLiteral "b")) =
      "concat_strings(y, \"b\")" ∧
    generateExpression [("x", "string"), ("y", "string")]
        (.infixExpression (.identifier "x") "+" (.identifier "y")) = "x + y" := by
  refine ⟨?_, ?_, ?_, ?_⟩
  · simpa using stringConcat_emission.1 [] "a" "b"
  · simpa using stringConcat_emission.2.1 [("y", "string")] "a" "y" (by rfl)
  · simpa using stringConcat_emission.2.2.1 [("y", "string")] "b" "y" (by rfl)
  · simpa using stringConcat_emission.2.2.2 [("x", "string"), ("y", "string")] "x" "y"

/-! ## Claim C3: auto-print format selection -/

/-- A generator state at the entry-point level whose table records `a`
as a string. -/
def cgStringA : CodeGenerator :=
  { CodeGenerator.new with vars := [("a", "string")] }

/-- Claim C3 counterexample: at the entry-point level, the auto-printed
identifier `a` is string-typed, yet the emitted `printf` uses the `%d`
format, not `%s` — `generateAutoPrint` switches on the syntactic node
type (`*ast.StringLiteral`), not on `expressionIsString` as the claim
states. -/
theorem autoPrint_string_ident_uses_pct_d :
    cgStringA.currentFunc = none ∧
    expressionIsString cgStringA.vars (.identifier "a") = true ∧
    (generateAutoPrint cgStringA (.identifier "a")).output =
      "    // Auto-print: a\n    printf(\"%d\\n\", a);\n" ∧
    (generateAutoPrint cgStringA (.identifier "a")).output ≠
      "    // Auto-print: a\n    printf(\"%s\\n\", a);\n" := by
  refine ⟨rfl, by rfl, by rfl, by decide⟩

/-- Claim C3 as amended: at the entry-point level the `printf` format
is `%s` exactly when the expression node is a string *literal* and `%d`
for every other node (string-typed identifiers and concatenations
included); inside a function body the expression is emitted as a plain
statement with no printf. -/
theorem autoPrint_amended (cg : CodeGenerator) (e : Expression) :
    (cg.currentFunc = none → isStringLiteralNode e = true →
      (generateAutoPrint cg e).output =
        cg.output ++ "    // Auto-print: " ++ generateExpression cg.vars e ++
          "\n" ++ "    printf(\"%s\\n\", " ++ generateExpression cg.vars e ++ ");\n") ∧
    (cg.currentFunc = none → isStringLiteralNode e = false →
      (generateAutoPrint cg e).output =
        cg.output ++ "    // Auto-print: " ++ generateExpression cg.vars e ++
          "\n" ++ "    printf(\"%d\\n\", " ++ generateExpression cg.vars e ++ ");\n") ∧
    (∀ fl, cg.currentFunc = some fl →
      (generateAutoPrint cg e).output =
        cg.output ++ generateExpression cg.vars e ++ ";\n") ∧
    (generateAutoPrint cg e).vars = cg.vars := by
  refine ⟨fun hc hs => ?_, fun hc hs => ?_, fun fl hc => ?_, ?_⟩
  · cases e <;> simp_all [generateAutoPrint, isStringLiteralNode, String.append_assoc]
  · cases e <;> simp_all [generateAutoPrint, isStringLiteralNode, String.append_assoc]
  · cases e <;> simp_all [generateAutoPrint]
  · cases hcf : cg.currentFunc <;> cases e <;> simp [generateAutoPrint, hcf]

/-- Witness for C3 (amended) at concrete inputs: a string literal gets
`%s`, an integer literal gets `%d`, and inside a function the statement
is plain. -/
theorem autoPrint_amended_witness :
    (generateAutoPrint CodeGenerator.new (.stringLiteral "hi")).output =
      "    // Auto-print: \"hi\"\n    printf(\"%s\\n\", \"hi\");\n" ∧
    (generateAutoPrint CodeGenerator.new (.integerLiteral 2)).output =
      "    // Auto-print: 2\n    printf(\"%d\\n\", 2);\n" ∧
    (generateAutoPrint
        { CodeGenerator.new with currentFunc := some ⟨[], .mk []⟩ }
        (.integerLiteral 2)).output = "2;\n" := by
  refine ⟨?_, ?_, ?_⟩
  · have h := (autoPrint_amended CodeGenerator.new (.stringLiteral "hi")).1 rfl rfl
    simpa using h
  · have h := (autoPrint_amended CodeGenerator.new (.integerLiteral 2)).2.1 rfl rfl
    simpa using h
  · have h := (autoPrint_amended
      { CodeGenerator.new with currentFunc := some ⟨[], .mk []⟩ }
      (.integerLiteral 2)).2.2.1 ⟨[], .mk []⟩ rfl
    simpa using h

/-! ## Claim C2: block scope restoration and the silent post-block
reference -/

/-- Claim C2 evaluated on the code: the symbol table is restored to the
block-entry snapshot after every emitted if body and block (proved in
general), but a reference to the block-local variable after the block
is NOT reported as an error — the generator has no diagnostic channel
at all, and at the failing input `if (1) { x = 5; } print(x);` it
silently emits an ordinary `%d` print of the now-unrecorded `x`. -/
theorem ifBlock_restores_but_reference_not_reported :
    (∀ (cg : CodeGenerator) (c : Expression) (cons : BlockStatement)
        (alt : Option BlockStatement),
      (generateStatement cg (.ifStatement c cons alt)).vars = cg.vars) ∧
    (∀ (cg : CodeGenerator) (b : BlockStatement),
      (generateStatement cg (.blockStatement b)).vars = cg.vars) ∧
    (generateStatementList CodeGenerator.new
        [.ifStatement (.integerLiteral 1)
            (.mk [.assignmentStatement "x" (.integerLiteral 5)]) none,
         .printStatement (.identifier "x")]).output =
      "    if (1) \x7b\n    int x = 5;\n    \x7d\n    printf(\"%d\\n\", x);\n" ∧
    (generateStatement CodeGenerator.new
        (.ifStatement (.integerLiteral 1)
          (.mk [.assignmentStatement "x" (.integerLiteral 5)]) none)).vars = [] := by
  refine ⟨fun cg c cons alt => ?_, fun cg b => ?_, by rfl, by rfl⟩
  · simp [generateStatement, backupVariables]
  · cases b with
    | mk stmts => simp [generateStatement, generateBlockStatement, backupVariables]

/-! ## Claim C4: extern statement error handling -/

/-- Claim C4 counterexample: on the token stream of `extern puts(x);`
— an extern that is not of the no-parameter form — the statement
resolves to an absent node, but NO diagnostic is recorded: the Go
function returns nil without touching the error list when the
identifier is followed by anything but a semicolon. -/
theorem parseExtern_paren_no_diagnostic :
    (parseExternStatement (Parser.new
      [⟨.EXTERN, "extern"⟩, ⟨.IDENT, "puts"⟩, ⟨.LPAREN, "("⟩,
       ⟨.IDENT, "x"⟩, ⟨.RPAREN, ")"⟩, ⟨.SEMICOLON, ";"⟩])).1 = none ∧
    (parseExternStatement (Parser.new
      [⟨.EXTERN, "extern"⟩, ⟨.IDENT, "puts"⟩, ⟨.LPAREN, "("⟩,
       ⟨.IDENT, "x"⟩, ⟨.RPAREN, ")"⟩, ⟨.SEMICOLON, ";"⟩])).2.errors = [] :=
  ⟨rfl, rfl⟩

/-- Claim C4 as amended: an extern whose next token is not an
identifier records one "expected IDENT" diagnostic and resolves to an
absent node; `extern name;` parses; and `extern name` followed by
anything but a semicolon (for example a left parenthesis) resolves to
an absent node with NO diagnostic recorded. -/
theorem parseExtern_amended (p : Parser) :
    (p.peek.type ≠ .IDENT →
      (parseExternStatement p).1 = none ∧
      (parseExternStatement p).2.errors = p.errors ++
        ["expected next token to be IDENT, got " ++ p.peek.type.goString ++
          " instead"]) ∧
    (p.peek.type = .IDENT → (p.rest.headD eofToken).type = .SEMICOLON →
      (parseExternStatement p).1 = some (.externStatement p.peek.literal) ∧
      (parseExternStatement p).2.errors = p.errors) ∧
    (p.peek.type = .IDENT → (p.rest.headD eofToken).type ≠ .SEMICOLON →
      (parseExternStatement p).1 = none ∧
      (parseExternStatement p).2.errors = p.errors) := by
  refine ⟨fun h => ?_, fun h1 h2 => ?_, fun h1 h2 => ?_⟩
  · simp [parseExternStatement, expectPeek, peekTokenIs, peekError, h,
      TokenType.goString]
  · simp_all [parseExternStatement, expectPeek, peekTokenIs, peekError, pNextToken]
  · simp_all [parseExternStatement, expectPeek, peekTokenIs, peekError, pNextToken]

/-- Witness for C4 (amended) at concrete inputs: `extern 5` records a
diagnostic, `extern puts;` parses, and `extern puts(` is silently
absent. -/
theorem parseExtern_amended_witness :
    (parseExternStatement (Parser.new [⟨.EXTERN, "extern"⟩, ⟨.INT, "5"⟩,
      ⟨.SEMICOLON, ";"⟩])).2.errors =
      ["expected next token to be IDENT, got INT instead"] ∧
    (parseExternStatement (Parser.new [⟨.EXTERN, "extern"⟩, ⟨.IDENT, "puts"⟩,
      ⟨.SEMICOLON, ";"⟩])).1 = some (.externStatement "puts") ∧
    (parseExternStatement (Parser.new [⟨.EXTERN, "extern"⟩, ⟨.IDENT, "puts"⟩,
      ⟨.LPAREN, "("⟩])).1 = none ∧
    (parseExternStatement (Parser.new [⟨.EXTERN, "extern"⟩, ⟨.IDENT, "puts"⟩,
      ⟨.LPAREN, "("⟩])).2.errors = [] := by
  refine ⟨?_, ?_, ?_, ?_⟩
  · have h := (parseExtern_amended (Parser.new [⟨.EXTERN, "extern"⟩, ⟨.INT, "5"⟩,
      ⟨.SEMICOLON, ";"⟩])).1 (by decide)
    simpa using h.2
  · have h := (parseExtern_amended (Parser.new [⟨.EXTERN, "extern"⟩,
      ⟨.IDENT, "puts"⟩, ⟨.SEMICOLON, ";"⟩])).2.1 (by decide) (by decide)
    simpa using h.1
  · have h := (parseExtern_amended (Parser.new [⟨.EXTERN, "extern"⟩,
      ⟨.IDENT, "puts"⟩, ⟨.LPAREN, "("⟩])).2.2 (by decide) (by decide)
    exact h.1
  · have h := (parseExtern_amended (Parser.new [⟨.EXTERN, "extern"⟩,
      ⟨.IDENT, "puts"⟩, ⟨.LPAREN, "("⟩])).2.2 (by decide) (by decide)
    exact h.2

/-! ## Claim C5: parser error accumulation -/

/-- Claim C5 counterexample: a stray semicolon at statement position —
a token with no parse rule — makes `parseStatement` hit its default
case, which returns nil WITHOUT appending any diagnostic, so
`ParseProgram` on the input `;` ends with an empty program and an empty
error list, refuting "at least one diagnostic message is appended". -/
theorem parseProgram_stray_semicolon_no_diagnostic :
    (ParseProgram 10 [⟨.SEMICOLON, ";"⟩]).1 = [] ∧
    (ParseProgram 10 [⟨.SEMICOLON, ";"⟩]).2.errors = [] :=
  ⟨rfl, rfl⟩

/-- Claim C5 as amended: failures inside a parse rule append one
diagnostic — an expected-token mismatch appends the "expected X, got Y"
message, and an expression-position token with no prefix rule appends
the "no prefix parse function" message — while a statement-position
token with no statement rule (a stray semicolon or closing brace at top
level) yields an absent node with NO diagnostic; sibling parsing
continues in both situations, as the stray-semicolon-then-var program
shows. -/
theorem parse_error_policy_amended :
    (∀ (p : Parser) (t : TokenType), p.peek.type ≠ t →
      expectPeek p t = (false, { p with errors := p.errors ++
        ["expected next token to be " ++ t.goString ++ ", got " ++
          p.peek.type.goString ++ " instead"] })) ∧
    (∀ (n : Nat) (p : Parser) (prec : Nat), hasPrefixRule p.cur.type = false →
      parseExpression (n + 1) p prec = (none, { p with errors := p.errors ++
        ["no prefix parse function for " ++ p.cur.type.goString ++ " found"] })) ∧
    (∀ (n : Nat) (p : Parser),
      p.cur.type ≠ .VAR → p.cur.type ≠ .PRINT → p.cur.type ≠ .IF →
      p.cur.type ≠ .EXTERN → p.cur.type ≠ .RETURN → p.cur.type ≠ .FUNC →
      p.cur.type ≠ .LBRACE → p.cur.type ≠ .IDENT →
      parseStatement (n + 1) p = (none, p)) ∧
    (ParseProgram 20 [⟨.SEMICOLON, ";"⟩, ⟨.VAR, "var"⟩, ⟨.IDENT, "x"⟩,
        ⟨.ASSIGN, "="⟩, ⟨.INT, "5"⟩, ⟨.SEMICOLON, ";"⟩]).1 =
      [.letStatement "x" (.integerLiteral 5)] ∧
    (ParseProgram 20 [⟨.SEMICOLON, ";"⟩, ⟨.VAR, "var"⟩, ⟨.IDENT, "x"⟩,
        ⟨.ASSIGN, "="⟩, ⟨.INT, "5"⟩, ⟨.SEMICOLON, ";"⟩]).2.errors = [] := by
  refine ⟨fun p t h => ?_, fun n p prec h => ?_,
    fun n p h1 h2 h3 h4 h5 h6 h7 h8 => ?_, by rfl, by rfl⟩
  · simp [expectPeek, peekTokenIs, peekError, h, TokenType.goString]
  · simp [parseExpression, noPrefixParseFnError, h, TokenType.goString]
  · cases htype : p.cur.type <;> simp_all [parseStatement]

/-- Witness for C5 (amended) at concrete inputs. -/
theorem parse_error_policy_amended_witness :
    expectPeek (Parser.new [⟨.VAR, "var"⟩, ⟨.ASSIGN, "="⟩]) .IDENT =
      (false, Parser.mk ⟨.VAR, "var"⟩ ⟨.ASSIGN, "="⟩ []
        ["expected next token to be IDENT, got = instead"]) ∧
    parseExpression 5 (Parser.new [⟨.SEMICOLON, ";"⟩]) LOWEST =
      (none, Parser.mk ⟨.SEMICOLON, ";"⟩ eofToken []
        ["no prefix parse function for ; found"]) ∧
    parseStatement 7 (Parser.new [⟨.RBRACE, "\x7d"⟩]) =
      (none, Parser.new [⟨.RBRACE, "\x7d"⟩]) := by
  refine ⟨?_, ?_, ?_⟩
  · have h := parse_error_policy_amended.1
      (Parser.new [⟨.VAR, "var"⟩, ⟨.ASSIGN, "="⟩]) .IDENT (by decide)
    simpa [Parser.new, TokenType.goString] using h
  · have h := parse_error_policy_amended.2.1 4
      (Parser.new [⟨.SEMICOLON, ";"⟩]) LOWEST (by decide)
    simpa [Parser.new, TokenType.goString] using h
  · exact parse_error_policy_amended.2.2.1 6 (Parser.new [⟨.RBRACE, "\x7d"⟩])
      (by decide) (by decide) (by decide) (by decide) (by decide) (by decide)
      (by decide) (by decide)

/-! ## Claim C7: associativity and precedence of parseExpression

The chain result is stated over the token stream
`a0 - a1 - ... - ak` for arbitrary identifier names: the minus
operators all sit at the same precedence (`SUM`), and the parse is the
left fold, i.e. a left-associative tree of any length. -/

/-- The token of the `-` operator. -/
def minusToken : Token := ⟨.MINUS, "-"⟩

/-- An identifier token. -/
def identToken (x : String) : Token := ⟨.IDENT, x⟩

/-- The continuation tokens of a minus chain: `- a1 - a2 ...`. -/
def chainCont : List String → List Token
  | [] => []
  | y :: ys => minusToken :: identToken y :: chainCont ys

/-- The parser state in the middle of a chain: the operand just parsed
is the current token and the rest of the chain is ahead. -/
def midParser (xs : List String) (cur : Token) (errs : List String) : Parser :=
  { cur := cur, peek := (chainCont xs).headD eofToken,
    rest := (chainCont xs).tail, errors := errs }

lemma parse_ident_atom (m : Nat) (xs : List String) (y : String) (errs : List String) :
    parseExpression (m + 2) (midParser xs (identToken y) errs) SUM =
      (some (.identifier y), midParser xs (identToken y) errs) := by
  rw [parseExpression]
  cases xs <;>
    simp [runPrefixRule, callLoop, infixLoop, midParser, chainCont, peekTokenIs,
      peekPrecedence, precedences, hasPrefixRule, curPrecedence, SUM, LOWEST,
      eofToken, minusToken, identToken, pNextToken]

lemma chain_infixLoop : ∀ (xs : List String) (cur : Token) (acc : Expression)
    (errs : List String) (n : Nat), xs.length + 3 ≤ n →
    (infixLoop n (midParser xs cur errs) (some acc) LOWEST).1 =
      some (xs.foldl (fun e y => .infixExpression e "-" (.identifier y)) acc) := by
  intro xs
  induction xs with
  | nil =>
      intro cur acc errs n hn
      obtain ⟨m, rfl⟩ : ∃ m, n = m + 1 := ⟨n - 1, by omega⟩
      simp [infixLoop, midParser, chainCont, peekTokenIs, peekPrecedence,
        precedences, eofToken, LOWEST]
  | cons y ys ih =>
      intro cur acc errs n hn
      obtain ⟨m, rfl⟩ : ∃ m, n = m + 4 :=
        ⟨n - 4, by simp [List.length_cons] at hn; omega⟩
      have hatom := parse_ident_atom m ys y errs
      have hih := ih (identToken y) (.infixExpression acc "-" (.identifier y)) errs
        (m + 3) (by simp [List.length_cons] at hn; omega)
      have hstep : pNextToken (pNextToken (midParser (y :: ys) cur errs)) =
          midParser ys (identToken y) errs := by
        cases ys <;> simp [pNextToken, midParser, chainCont]
      have hpt : peekTokenIs (midParser (y :: ys) cur errs) .SEMICOLON = false := by
        simp [peekTokenIs, midParser, chainCont, minusToken]
      have hpp : peekPrecedence (midParser (y :: ys) cur errs) = SUM := by
        simp [peekPrecedence, midParser, chainCont, minusToken, precedences]
      have hir : hasInfixRule (midParser (y :: ys) cur errs).peek.type = true := by
        simp [midParser, chainCont, minusToken, hasInfixRule]
      have hop : (pNextToken (midParser (y :: ys) cur errs)).cur = minusToken := by
        simp [pNextToken, midParser, chainCont]
      have hcp : curPrecedence (pNextToken (midParser (y :: ys) cur errs)) = SUM := by
        simp [curPrecedence, pNextToken, midParser, chainCont, minusToken,
          precedences]
      rw [infixLoop]
      simp only [hpt, hpp, hir, LOWEST, SUM, Bool.not_false, Bool.true_and]
      norm_num
      rw [parseInfixExpression]
      rw [hop, hcp, hstep, hatom]
      simp only [orNil, minusToken, List.foldl_cons]
      exact hih

lemma new_eq_mid (x : String) (xs : List String) :
    Parser.new (identToken x :: chainCont xs) = midParser xs (identToken x) [] := by
  cases xs <;> simp [Parser.new, midParser, chainCont, identToken]

lemma parseExpression_minus_chain (x : String) (xs : List String) :
    (parseExpression (xs.length + 5)
        (Parser.new (identToken x :: chainCont xs)) LOWEST).1 =
      some (xs.foldl (fun e y => .infixExpression e "-" (.identifier y))
        (.identifier x)) := by
  rw [new_eq_mid]
  have hpre : runPrefixRule (xs.length + 4) (midParser xs (identToken x) []) =
      (some (.identifier x), midParser xs (identToken x) []) := by
    rw [show xs.length + 4 = (xs.length + 3) + 1 from rfl, runPrefixRule]
    simp [midParser, identToken]
  have hcall : callLoop (xs.length + 4) (midParser xs (identToken x) [])
      (some (.identifier x)) =
      (some (.identifier x), midParser xs (identToken x) []) := by
    rw [show xs.length + 4 = (xs.length + 3) + 1 from rfl, callLoop]
    cases xs with
    | nil => simp [peekTokenIs, midParser, chainCont, eofToken]
    | cons y ys => simp [peekTokenIs, midParser, chainCont, minusToken]
  have h1 : hasPrefixRule (midParser xs (identToken x) []).cur.type = true := by
    simp [midParser, identToken, hasPrefixRule]
  rw [show xs.length + 5 = (xs.length + 4) + 1 from rfl, parseExpression]
  simp only [h1, if_true, hpre, hcall]
  exact chain_infixLoop xs (identToken x) (.identifier x) [] (xs.length + 4) (by omega)

/-- Claim C7: `parseExpression` builds left-associative trees for
chains of the equal-precedence operator `-` of any length and any
identifier names (the parse of `a0 - a1 - ... - ak` is the left fold,
so `a - b - c` parses as `(a - b) - c`); it nests by precedence for
mixed operators (`1 + 2 * 3` parses as `1 + (2 * 3)`); and the
precedence levels satisfy `LOWEST < EQUALS < SUM < PRODUCT`. -/
theorem parseExpression_assoc_and_precedence :
    (∀ (x : String) (xs : List String),
      (parseExpression (xs.length + 5)
          (Parser.new (identToken x :: chainCont xs)) LOWEST).1 =
        some (xs.foldl (fun e y => .infixExpression e "-" (.identifier y))
          (.identifier x))) ∧
    (parseExpression 12 (Parser.new
        [⟨.INT, "1"⟩, ⟨.PLUS, "+"⟩, ⟨.INT, "2"⟩, ⟨.ASTERISK, "*"⟩,
         ⟨.INT, "3"⟩]) LOWEST).1 =
      some (.infixExpression (.integerLiteral 1) "+"
        (.infixExpression (.integerLiteral 2) "*" (.integerLiteral 3))) ∧
    LOWEST < EQUALS ∧ EQUALS < SUM ∧ SUM < PRODUCT :=
  ⟨fun x xs => parseExpression_minus_chain x xs, by rfl,
    by decide, by decide, by decide⟩

/-! ## Lexer lemmas shared by the tokenizer claims -/

lemma ch_eq_nul_of_le (l : Lexer) (h : l.input.length ≤ l.pos) : l.ch = nulChar := by
  simp [Lexer.ch, List.getD, List.getElem?_eq_none h]

lemma pos_lt_of_ch_ne_nul (l : Lexer) (h : l.ch ≠ nulChar) : l.pos < l.input.length := by
  by_contra h2
  exact h (ch_eq_nul_of_le l (by omega))

lemma skipWhitespaceF_not_ws (n : Nat) (l : Lexer) (h : isWhitespaceGo l.ch = false) :
    skipWhitespaceF n l = l := by
  cases n <;> simp [skipWhitespaceF, h]

lemma tokenSwitch_nul (l : Lexer) (h : l.ch = nulChar) :
    tokenSwitch l = (⟨.EOF, ""⟩, readChar l) := by
  rw [tokenSwitch, h]
  simp only [nulChar, lbraceChar, rbraceChar, Char.reduceEq, if_false, if_true]

lemma nextToken_past_end (l : Lexer) (h : l.input.length ≤ l.pos) :
    nextToken l = (⟨.EOF, ""⟩, readChar l) := by
  have hch : l.ch = nulChar := ch_eq_nul_of_le l h
  have hws : isWhitespaceGo l.ch = false := by rw [hch]; decide
  have hsw : skipWhitespace l = l := skipWhitespaceF_not_ws _ _ hws
  rw [nextToken]
  cases remFuel l with
  | zero => rw [nextTokenF, hsw, tokenSwitch_nul l hch]
  | succ n =>
      rw [nextTokenF]
      simp only [hsw, hch, nulChar, Char.reduceEq, Bool.false_and, Bool.and_false,
        if_false, Bool.and_self]
      exact tokenSwitch_nul l hch

lemma tokenAt_past_end (l : Lexer) (h : l.input.length ≤ l.pos) (k : Nat) :
    tokenAt l k = ⟨.EOF, ""⟩ := by
  induction k generalizing l with
  | zero => simp [tokenAt, nextToken_past_end l h]
  | succ k ih =>
      rw [tokenAt, nextToken_past_end l h]
      exact ih (readChar l) (by simp [readChar]; omega)

/-- The operator and delimiter bytes the `NextToken` switch recognizes. -/
def recognizedOperatorChars : List Char :=
  ['=', '!', ':', '.', lbraceChar, rbraceChar, '+', '-', '*', '/', ',', ';', '(', ')']

lemma nextToken_plain (l : Lexer) (hws : isWhitespaceGo l.ch = false)
    (hsl : l.ch ≠ '/') : nextToken l = tokenSwitch l := by
  have hsw : skipWhitespace l = l := skipWhitespaceF_not_ws _ _ hws
  rw [nextToken]
  cases remFuel l with
  | zero => rw [nextTokenF, hsw]
  | succ n =>
      rw [nextTokenF]
      rw [hsw]
      simp [hsl]

lemma tokenSwitch_illegal (l : Lexer)
    (hops : l.ch ∉ recognizedOperatorChars)
    (hlet : isLetter l.ch = false) (hdig : isDigit l.ch = false)
    (hq : l.ch ≠ '"') (hnul : l.ch ≠ nulChar) :
    tokenSwitch l = (⟨.ILLEGAL, String.singleton l.ch⟩, readChar l) := by
  simp only [recognizedOperatorChars, List.mem_cons, List.mem_singleton, not_or] at hops
  obtain ⟨h1, h2, h3, h4, h5, h6, h7, h8, h9, h10, h11, h12, h13, h14, -⟩ := hops
  rw [tokenSwitch]
  simp only [hq, h1, h2, h3, h4, h5, h6, h7, h8, h9, h10, h11, h12, h13, h14,
    hnul, hlet, hdig, if_false, Bool.false_eq_true]

lemma scanStringF_runs_out (n : Nat) : ∀ (l : Lexer),
    l.input.length ≤ l.pos + n →
    (∀ i, l.pos ≤ i → i < l.input.length →
      l.input.getD i nulChar ≠ '"' ∧ l.input.getD i nulChar ≠ nulChar) →
    scanStringF n l = { l with pos := max l.pos l.input.length } := by
  induction n with
  | zero =>
      intro l hf _
      have hm : max l.pos l.input.length = l.pos := by omega
      rw [scanStringF, hm]
  | succ n ih =>
      intro l hf hno
      by_cases hpos : l.pos < l.input.length
      · have hch := hno l.pos (le_refl _) hpos
        have hq : l.ch ≠ '"' := hch.1
        have hn : l.ch ≠ nulChar := hch.2
        rw [scanStringF]
        simp only [hq, hn, ne_eq, not_false_eq_true, decide_True, Bool.and_self, if_true]
        rw [ih (readChar l) (by simp [readChar]; omega)
          (fun i h1 h2 => hno i (by simp [readChar] at h1; omega)
            (by simpa [readChar] using h2))]
        simp [readChar]
        omega
      · have hle : l.input.length ≤ l.pos := by omega
        have hch : l.ch = nulChar := ch_eq_nul_of_le l hle
        have hm : max l.pos l.input.length = l.pos := by omega
        rw [scanStringF, hm]
        simp [hch]

/-! ## Claim C8: totality and taxonomy of NextToken -/

/-- Claim C8: `NextToken` is total (these definitions are total Lean
functions, and the unclosed block comment `/*ab` and unclosed string
`"ab` both still yield a token); once the cursor is at or past end of
input every subsequent call returns the end-of-input token again; and a
byte that is not whitespace, not a recognized operator or delimiter
(which rules out comment openers), not a letter or underscore, not a
digit, not a quote, and not the NUL end-of-input sentinel yields an
ILLEGAL token. -/
theorem nextToken_total_eof_illegal :
    (∀ (l : Lexer), l.input.length ≤ l.pos → ∀ k, tokenAt l k = ⟨.EOF, ""⟩) ∧
    (∀ (l : Lexer), isWhitespaceGo l.ch = false → l.ch ∉ recognizedOperatorChars →
      isLetter l.ch = false → isDigit l.ch = false → l.ch ≠ '"' → l.ch ≠ nulChar →
      nextToken l = (⟨.ILLEGAL, String.singleton l.ch⟩, readChar l)) ∧
    (nextToken (Lexer.fromString "/*ab")).1 = ⟨.EOF, ""⟩ ∧
    (nextToken (Lexer.fromString "\"ab")).1 = ⟨.STRING, "ab"⟩ := by
  refine ⟨fun l h k => tokenAt_past_end l h k, fun l hws hops hlet hdig hq hnul => ?_,
    by rfl, by rfl⟩
  have hsl : l.ch ≠ '/' := fun h => hops (by rw [h]; decide)
  rw [nextToken_plain l hws hsl, tokenSwitch_illegal l hops hlet hdig hq hnul]

/-- Witness for C8: past end of input the fourth call still returns
EOF, and the byte `@` yields an ILLEGAL token. -/
theorem nextToken_total_eof_illegal_witness :
    tokenAt { input := "hi".data, pos := 2 } 3 = ⟨.EOF, ""⟩ ∧
    nextToken (Lexer.fromString "@") =
      (⟨.ILLEGAL, "@"⟩, { input := "@".data, pos := 1 }) := by
  refine ⟨nextToken_total_eof_illegal.1 _ (by decide) 3, ?_⟩
  have h := nextToken_total_eof_illegal.2.1 (Lexer.fromString "@")
    (by decide) (by decide) (by decide) (by decide) (by decide) (by decide)
  simpa [Lexer.fromString, readChar] using h

/-! ## Claim C10: unterminated string literal -/

/-- Claim C10: when the cursor sits on an opening quote and no closing
quote follows before end of input (nor a NUL byte, at which the Go scan
would also stop), `NextToken` returns a STRING token whose literal is
all remaining text after the opening quote — not an ILLEGAL token or
any error — and leaves the cursor at end of input, so every subsequent
call returns the end-of-input token. -/
theorem unterminated_string_token (l : Lexer)
    (hq : l.ch = '"')
    (hno : ∀ i, l.pos + 1 ≤ i → i < l.input.length →
      l.input.getD i nulChar ≠ '"' ∧ l.input.getD i nulChar ≠ nulChar) :
    (nextToken l).1 = ⟨.STRING, String.mk (l.input.drop (l.pos + 1))⟩ ∧
    (nextToken l).2.pos = (nextToken l).2.input.length ∧
    (∀ k, tokenAt (nextToken l).2 k = ⟨.EOF, ""⟩) := by
  have hnul : l.ch ≠ nulChar := by rw [hq]; decide
  have hpos : l.pos < l.input.length := pos_lt_of_ch_ne_nul l hnul
  have hws : isWhitespaceGo l.ch = false := by rw [hq]; decide
  have hsl : l.ch ≠ '/' := by rw [hq]; decide
  have hscan : scanStringF (remFuel (readChar l)) (readChar l) =
      { l with pos := l.input.length } := by
    rw [scanStringF_runs_out _ (readChar l)
      (by simp [readChar, remFuel]; omega)
      (fun i h1 h2 => hno i (by simpa [readChar] using h1) (by simpa [readChar] using h2))]
    simp [readChar]
    omega
  have hread : readString l = (String.mk (l.input.drop (l.pos + 1)),
      { l with pos := l.input.length }) := by
    rw [readString]
    have hne : ({ l with pos := l.input.length } : Lexer).ch ≠ '"' := by
      rw [ch_eq_nul_of_le _ (by simp)]
      decide
    have hscan2 := hscan
    simp only [readChar] at hscan2
    simp only [readChar]
    rw [hscan2]
    rw [if_neg hne]
    simp only [Prod.mk.injEq]
    constructor
    · rw [List.take_of_length_le (by simp)]
    · trivial
  have hnt : nextToken l = (⟨.STRING, String.mk (l.input.drop (l.pos + 1))⟩,
      { l with pos := l.input.length }) := by
    rw [nextToken_plain l hws hsl, tokenSwitch]
    simp [hq, hread]
  rw [hnt]
  refine ⟨rfl, by simp, fun k => tokenAt_past_end _ (by simp) k⟩

/-- Witness for C10 on the input `"ab`: the token is STRING with
literal `ab`, and the next two calls return EOF. -/
theorem unterminated_string_token_witness :
    (nextToken (Lexer.fromString "\"ab")).1 = ⟨.STRING, "ab"⟩ ∧
    tokenAt (nextToken (Lexer.fromString "\"ab")).2 0 = ⟨.EOF, ""⟩ ∧
    tokenAt (nextToken (Lexer.fromString "\"ab")).2 1 = ⟨.EOF, ""⟩ := by
  have h := unterminated_string_token (Lexer.fromString "\"ab") (by decide)
    (by
      intro i h1 h2
      have h3 : i < 3 := by simpa [Lexer.fromString] using h2
      have h4 : 1 ≤ i := by simpa [Lexer.fromString] using h1
      interval_cases i <;> decide)
  exact ⟨h.1, h.2.2 0, h.2.2 1⟩

/-! ## Claim C1: determinism of Generate across calls -/

/-- A two-function program: `func a() { } func b() { }`. -/
def twoFunctionProgram : List Statement :=
  [.functionStatement "a" [] (.mk []), .functionStatement "b" [] (.mk [])]

set_option maxRecDepth 8000 in
/-- Claim C1 evaluated on the code: the function table of the
two-function program has exactly the keys `a` and `b`; `["a","b"]` and
`["b","a"]` are both permutations of those keys, i.e. both are
iteration orders Go's randomized map ranging can produce; and `Generate`
emits different bytes under the two orders — so two independent calls
of `Generate` on this AST need not produce byte-identical C output. -/
theorem generate_depends_on_map_iteration_order :
    functionKeys (extractFunctions CodeGenerator.new twoFunctionProgram).1 = ["a", "b"] ∧
    List.Perm ["a", "b"] ["a", "b"] ∧
    List.Perm ["b", "a"] ["a", "b"] ∧
    Generate twoFunctionProgram ["a", "b"] ["a", "b"] ≠
      Generate twoFunctionProgram ["b", "a"] ["b", "a"] := by
  refine ⟨by rfl, by decide, by decide, by decide⟩

end CCCP
